import Mathlib

/-!
Verification development for the ceph-qa-suite workunit orchestration task
(src/tasks/workunit.py) and the long-filename object utility
(src/tasks/create_verify_lfn_objects.py).

Each definition is a shallow embedding of the corresponding Python code;
line numbers in the doc comments refer to the Python source.
-/

namespace CephQA

/-! ## String helpers mirroring Python primitives -/

/-- The Python method str.startswith, on character lists via List.isPrefixOf
(workunit.py line 440 uses w.startswith(spec + "/")). -/
def pyStartsWith (pre s : String) : Bool :=
  pre.toList.isPrefixOf s.toList

/-- The Python substring containment test of a needle in a hay (used at
workunit.py line 110 for the role assertion and line 385 for the
git URL check).  True iff needle occurs contiguously in hay. -/
def pyInContains : List Char → List Char → Bool
  | needle, [] => needle.isEmpty
  | needle, c :: rest => needle.isPrefixOf (c :: rest) || pyInContains needle rest

/-- First character of a string, if any. -/
def strHead (s : String) : Option Char := s.toList.head?

/-- Last character of a string, if any. -/
def strLast (s : String) : Option Char := s.toList.getLast?

/-- The Python method str.split with a single-character separator
(workunit.py line 432: misc.get_file(...).split on the NUL character).
Note "".split(c) = [""] and a trailing separator yields a trailing "". -/
def pySplitChar (sep : Char) : List Char → List (List Char)
  | [] => [[]]
  | c :: rest =>
    if c == sep then [] :: pySplitChar sep rest
    else
      match pySplitChar sep rest with
      | [] => [[c]]
      | g :: gs => (c :: g) :: gs

/-- The Python split lifted to String. -/
def pySplit (s : String) (sep : Char) : List String :=
  (pySplitChar sep s.toList).map String.mk

/-- POSIX os.path.join for two components (workunit.py lines 378, 380):
an absolute second component discards the first; otherwise the components
are joined with a single separator (none added if the first already ends in one). -/
def pyPathJoin (a b : String) : String :=
  if strHead b = some '/' then b
  else if a = "" then b
  else if strLast a = some '/' then a ++ b
  else a ++ "/" ++ b

/-! ## Workunit selection (workunit.py lines 437-443) -/

/-- Embedding of workunit.py line 440:
to_run = [w for w in workunits if w == spec or w.startswith(prefix)]
where prefix = spec + "/" (line 439). -/
def selectWorkunits (workunits : List String) (spec : String) : List String :=
  workunits.filter (fun w => w == spec || pyStartsWith (spec ++ "/") w)

/-- Embedding of the per-spec loop of _run_tests (workunit.py lines 437-487).
Returns the workunits executed, in order, together with the first spec that
matched nothing (if any; the Python code raises
RuntimeError("Spec did not match any workunits: ...") there, aborting the
remaining specs of the role, line 442). -/
def runSpecs (workunits : List String) : List String → List String × Option String
  | [] => ([], none)
  | spec :: rest =>
    let to_run := selectWorkunits workunits spec
    if to_run = [] then ([], some spec)
    else
      let r := runSpecs workunits rest
      (to_run ++ r.1, r.2)

/-! ## Scratch directory lifecycle (workunit.py lines 147-255) -/

/-- Remote commands issued by _make_scratch_dir (workunit.py lines 200-253). -/
inductive ScratchOp
  | statMnt
  | mkdirMnt
  | mkdirSubdir
  | sudoInstallSubdir
  deriving DecidableEq

/-- Embedding of _make_scratch_dir (workunit.py lines 184-255).
mntPreExists records whether the remote stat of the mountpoint succeeds.
Returns the created_mountpoint flag (line 193/218/255) and the remote
commands issued: a failed stat triggers a plain mkdir of the mountpoint
and a plain mkdir of the subdir (lines 210-234); a pre-existing mountpoint
triggers an ownership-aware sudo install -d of the subdir (lines 236-253). -/
def makeScratchDir (mntPreExists : Bool) : Bool × List ScratchOp :=
  if mntPreExists then (false, [ScratchOp.statMnt, ScratchOp.sudoInstallSubdir])
  else (true, [ScratchOp.statMnt, ScratchOp.mkdirMnt, ScratchOp.mkdirSubdir])

/-- Remote commands issued by _delete_dir (workunit.py lines 147-181). -/
inductive TeardownOp
  | rmClientDir
  | rmdirMountpoint
  deriving DecidableEq

/-- Embedding of _delete_dir (workunit.py lines 147-181): the inner
client.<id> directory is always removed (sudo rm -rf, lines 161-169);
the mountpoint itself is removed (plain rmdir, lines 173-180) only when
created_mountpoint is true. -/
def deleteDir (created_mountpoint : Bool) : List TeardownOp :=
  [TeardownOp.rmClientDir] ++
    (if created_mountpoint then [TeardownOp.rmdirMountpoint] else [])

/-! ## Source fetch strategy (workunit.py lines 384-417) -/

/-- The two fetch strategies of _run_tests: a remote git archive transfer
(lines 386-401) versus a full clone + checkout + subtree move
(lines 403-417). -/
inductive FetchStrategy
  | archiveTransfer
  | cloneCheckout
  deriving DecidableEq

/-- The needle of the strategy test at workunit.py line 385. -/
def canonicalSubstring : String := "github.com/ceph/ceph"

/-- Embedding of the strategy selection at workunit.py line 385:
if "github.com/ceph/ceph" in git_url: ... else: ...
The Python operator in on strings is substring containment. -/
def fetchStrategy (git_url : String) : FetchStrategy :=
  if pyInContains canonicalSubstring.toList git_url.toList then
    FetchStrategy.archiveTransfer
  else
    FetchStrategy.cloneCheckout

/-! ## Workunit discovery (workunit.py lines 419-433) -/

/-- Embedding of workunit.py line 432:
workunits = sorted(misc.get_file(remote, workunits_file).split(NUL))
where the file holds the NUL-separated output of find -executable -type f.
The argument is the raw listing-file content. -/
def discoveredWorkunits (listingContent : String) : List String :=
  List.insertionSort (fun a b => a ≤ b) (pySplit listingContent (Char.ofNat 0))

/-! ## Role validation order (workunit.py lines 105-112 and 303-307) -/

/-- Modelled from the spec: the external Role Resolver decomposition
(spec section 3, "Role: identifier of the form [cluster.]client.<id>;
decomposes into (cluster name, type, id)", with the default cluster
"ceph" when no cluster component is present).  The implementation lives
in the external teuthology library (misc.split_role), not under src/. -/
def splitRole (role : String) : Option (String × String × String) :=
  match pySplit role '.' with
  | [t, i] => some ("ceph", t, i)
  | c :: t :: rest => some (c, t, String.intercalate "." rest)
  | _ => none

/-- One step of the per-role pipeline, as seen by the remote target. -/
inductive RoleOp
  | provisionOp (op : ScratchOp)
  | runWorkunits
  deriving DecidableEq

/-- Embedding of the order of checks for one non-"all" role of the clients
mapping: task asserts "client" in role (substring test, workunit.py
line 110) before any remote interaction; if that passes, _make_scratch_dir
issues its remote commands (lines 111, 200-253); only then does _run_tests
decompose the role and assert type_ == "client" (lines 305-306).
Returns the remote operations issued for the role and whether its
run proceeds to execute workunits (false = an assertion failed). -/
def roleProcess (role : String) (mntPreExists : Bool) : List RoleOp × Bool :=
  if pyInContains "client".toList role.toList then
    let prov := (makeScratchDir mntPreExists).2.map RoleOp.provisionOp
    match splitRole role with
    | some (_, t, _) =>
      if t = "client" then (prov ++ [RoleOp.runWorkunits], true) else (prov, false)
    | none => (prov, false)
  else ([], false)

/-! ## Orchestration trace (workunit.py lines 103-130 and 258-282) -/

/-- Events of one orchestration run, at the granularity the two-wave
ordering claims need.  runAll carries the position of its selector in the
"all" list so selector-major ordering can be stated. -/
inductive WEvent
  | provisionExplicit (role : String)
  | runExplicit (role : String) (specs : List String)
  | teardownExplicit (role : String)
  | provisionAll (role : String)
  | runAll (specIdx : Nat) (spec : String) (role : String)
  | teardownAll (role : String)
  deriving DecidableEq

/-- Whether an event belongs to the explicit (phase-1) part of the run:
scratch provisioning (lines 105-112), the per-role execution units
(lines 115-119), or their teardown (lines 122-123). -/
def isPhase1 : WEvent → Bool
  | WEvent.provisionExplicit _ => true
  | WEvent.runExplicit _ _ => true
  | WEvent.teardownExplicit _ => true
  | _ => false

/-- The selector position of an "all"-wave execution event, if any. -/
def allIdx : WEvent → Option Nat
  | WEvent.runAll m _ _ => some m
  | _ => none

/-- Embedding of the selector loop of _spawn_on_all_clients
(workunit.py lines 274-278): for each selector in order, one parallel
wave across every discovered client role, joined before the next selector
starts (the with parallel() barrier). -/
def phase2Trace (allRoles : List String) : Nat → List String → List WEvent
  | _, [] => []
  | start, s :: rest =>
    allRoles.map (fun r => WEvent.runAll start s r) ++
      phase2Trace allRoles (start + 1) rest

/-- Embedding of _spawn_on_all_clients (workunit.py lines 258-282):
provision a scratch dir for every discovered client role (lines 268-272),
run the selector-major waves (lines 274-278), then tear all of them down
(lines 281-282). -/
def spawnOnAllClients (allRoles : List String) (specs : List String) : List WEvent :=
  allRoles.map WEvent.provisionAll ++
    phase2Trace allRoles 0 specs ++
    allRoles.map WEvent.teardownAll

/-- The non-"all" entries of the clients mapping, in input order
(workunit.py lines 105-108 and 117 skip the "all" key). -/
def explicitClients (clients : List (String × List String)) :
    List (String × List String) :=
  clients.filter (fun c => c.1 != "all")

/-- Embedding of task (workunit.py lines 103-130): provision every
non-"all" role, run their execution units (one parallel wave, joined at
the with-block exit), tear them down, and only then, if an "all" entry is
present, hand its selectors to _spawn_on_all_clients.  Each parallel wave
is linearized in role order; the ordering properties proved below concern
only the barriers between waves, which any linearization preserves. -/
def taskTrace (clients : List (String × List String)) (allRoles : List String) :
    List WEvent :=
  (explicitClients clients).map (fun c => WEvent.provisionExplicit c.1) ++
    (explicitClients clients).map (fun c => WEvent.runExplicit c.1 c.2) ++
    (explicitClients clients).map (fun c => WEvent.teardownExplicit c.1) ++
    (match clients.find? (fun c => c.1 == "all") with
     | none => []
     | some c => spawnOnAllClients allRoles c.2)

/-- Ordering discipline of one orchestration trace: an "all"-wave
execution event is never followed by a phase-1 event, and "all"-wave
execution events carry non-decreasing selector positions. -/
def WOrder (a b : WEvent) : Prop :=
  ∀ m, allIdx a = some m →
    isPhase1 b = false ∧ ∀ n, allIdx b = some n → m ≤ n

/-! ## Python toolchain resolution (workunit.py lines 309-322, 469-471) -/

/-- Embedding of workunit.py lines 309-319: PYTHON starts as None; if env
is a non-empty dict it is looked up from env["PYTHON"]; if the config
option python is present, it overwrites PYTHON with "python" + version. -/
def resolvePYTHON (env : Option (List (String × String)))
    (py_version : Option String) : Option String :=
  let fromEnv : Option String :=
    match env with
    | some e => if e = [] then none else e.lookup "PYTHON"
    | none => none
  match py_version with
  | some v => some ("python" ++ v)
  | none => fromEnv

/-- Embedding of workunit.py lines 469-471: only when the config option
python was given (if py_version:) is the workunit invoked explicitly
through the resolved runtime (args.extend with env, --, PYTHON). -/
def explicitRuntimeArgs (py_version resolved : Option String) : List String :=
  if py_version.isSome then ["env", "--", resolved.getD ""] else []

/-! ## Scratch-tmp path resolution (workunit.py lines 114-119, 274-278, 376-380) -/

/-- Embedding of workunit.py lines 376-380: the per-workunit scratch-tmp
directory is mnt/client.<id>/tmp when no subdir was passed to _run_tests,
and os.path.join(mnt, subdir) when one was. -/
def scratchTmp (mnt id_ : String) (subdir : Option String) : String :=
  match subdir with
  | none => pyPathJoin (pyPathJoin mnt ("client." ++ id_)) "tmp"
  | some sd => pyPathJoin mnt sd

/-- Embedding of the phase-1 spawn call site (workunit.py lines 118-119):
p.spawn(_run_tests, ctx, refspec, role, tests, env, python, timeout=...)
omits the subdir argument, so _run_tests receives subdir = None no matter
what subdir the configuration carries. -/
def phase1RunSubdir (_cfgSubdir : Option String) : Option String := none

/-- Embedding of the "all"-wave spawn call site (workunit.py line 277):
the configured subdir is passed through to _run_tests. -/
def allWaveRunSubdir (cfgSubdir : Option String) : Option String := cfgSubdir

/-! ## Long-filename utility (create_verify_lfn_objects.py lines 26-43) -/

/-- A Python value, as far as the long-filename utility manipulates them. -/
inductive PyVal
  | pint (n : Int)
  | pstr (s : String)
  | plist (l : List PyVal)

/-- CPython identity test of v against the empty string literal
(create_verify_lfn_objects.py line 37):
the empty string is interned in CPython, so the test holds exactly for
the empty string value and is False for any non-string value. -/
def pyIsEmptyStrLit : PyVal → Bool
  | PyVal.pstr s => s == ""
  | _ => false

/-- Python iteration (for x in v): lists yield their elements, strings
their characters; iterating an int raises TypeError (modelled as none). -/
def pyIter : PyVal → Option (List PyVal)
  | PyVal.plist l => some l
  | PyVal.pstr s => some (s.toList.map (fun c => PyVal.pstr (String.mk [c])))
  | PyVal.pint _ => none

/-- Python len(): defined on lists and strings, TypeError on ints. -/
def pyLen : PyVal → Option Int
  | PyVal.plist l => some l.length
  | PyVal.pstr s => some s.length
  | PyVal.pint _ => none

/-- Python subtraction of an int from a value: only int - int is defined;
subtracting from a list or string raises TypeError (modelled as none). -/
def pySubInt : PyVal → Int → Option PyVal
  | PyVal.pint a, b => some (PyVal.pint (a - b))
  | PyVal.pstr _, _ => none
  | PyVal.plist _, _ => none

/-- Embedding of the inner function object_name
(create_verify_lfn_objects.py lines 35-42) exactly as written: it closes
over the whole config values namespace and name_length (not the loop
variables l and ns), so nslength is the length of the configured value,
and fillerlen subtracts ints from whatever type name_length has. -/
def lfn_object_name (nspace name_len : PyVal) (pfx : String) (i : Nat) :
    Option PyVal := do
  let nslength : Int ← if pyIsEmptyStrLit nspace then pure 0 else pyLen nspace
  let numstr := toString i
  let f1 ← pySubInt name_len nslength
  let f2 ← pySubInt f1 (Int.ofNat pfx.length)
  let f3 ← pySubInt f2 (Int.ofNat numstr.length)
  match f3 with
  | PyVal.pint fl =>
    if 0 ≤ fl then
      pure (PyVal.pstr (pfx ++ String.mk (List.replicate fl.toNat 'a') ++ numstr))
    else none
  | _ => none

/-- Embedding of the object-synthesis entry loops
(create_verify_lfn_objects.py lines 32-43): for l in name_length, for ns
in namespace, objects.append(map(object_name, range(num_objects))).
Iterating a non-iterable config value, or any TypeError inside
object_name, aborts the task (none).  map is the eager Python 2 map the
code was written for. -/
def lfn_task_objects (name_len nspace : PyVal) (pfx : String)
    (num_objects : Nat) : Option (List PyVal) := do
  let ls ← pyIter name_len
  ls.foldlM
    (fun (acc : List PyVal) _ => do
      let nss ← pyIter nspace
      nss.foldlM
        (fun (acc2 : List PyVal) _ => do
          let names ← (List.range num_objects).mapM
            (fun i => lfn_object_name nspace name_len pfx i)
          pure (acc2 ++ [PyVal.plist names]))
        acc)
    []

/-- Modelled from the spec: the intended name synthesis of the
long-filename utility (spec sections 6 and 8: "synthesizes num_objects
names of exactly name_length characters, padding with filler, embedding
prefix and numeric suffix"), i.e. what object_name would compute had it
used the per-iteration scalar values. -/
def spec_object_name (name_len : Nat) (nspace pfx : String) (i : Nat) : String :=
  let numstr := toString i
  let fillerlen := name_len - nspace.length - pfx.length - numstr.length
  pfx ++ String.mk (List.replicate fillerlen 'a') ++ numstr

/-! ## Helper lemmas -/

/-- List.isPrefixOf decides the existence of a completing suffix. -/
theorem isPrefixOf_iff_exists : ∀ (l h : List Char),
    l.isPrefixOf h = true ↔ ∃ t, h = l ++ t := by
  intro l
  induction l with
  | nil =>
    intro h
    simp [List.isPrefixOf]
  | cons a as ih =>
    intro h
    cases h with
    | nil =>
      simp [List.isPrefixOf]
    | cons b bs =>
      simp only [List.isPrefixOf, Bool.and_eq_true, beq_iff_eq, ih bs]
      constructor
      · rintro ⟨hab, t, ht⟩
        exact ⟨t, by simp [hab, ht]⟩
      · rintro ⟨t, ht⟩
        injection ht with h1 h2
        exact ⟨h1.symm, t, h2⟩

/-- Correctness of the Python substring test: pyInContains holds exactly
when the needle occurs contiguously in the haystack. -/
theorem pyInContains_iff (n : List Char) : ∀ h : List Char,
    pyInContains n h = true ↔ ∃ s t, h = s ++ n ++ t := by
  intro h
  induction h with
  | nil =>
    simp only [pyInContains, List.isEmpty_iff]
    constructor
    · rintro rfl
      exact ⟨[], [], rfl⟩
    · rintro ⟨s, t, ht⟩
      rcases List.append_eq_nil.mp ht.symm with ⟨h1, h2⟩
      rcases List.append_eq_nil.mp h1 with ⟨_, h3⟩
      exact h3
  | cons c rest ih =>
    simp only [pyInContains, Bool.or_eq_true, isPrefixOf_iff_exists, ih]
    constructor
    · rintro (⟨t, ht⟩ | ⟨s, t, ht⟩)
      · exact ⟨[], t, by simpa using ht⟩
      · exact ⟨c :: s, t, by simp [ht]⟩
    · rintro ⟨s, t, ht⟩
      cases s with
      | nil =>
        exact Or.inl ⟨t, by simpa using ht⟩
      | cons c' s' =>
        injection ht with h1 h2
        exact Or.inr ⟨s', t, h2⟩

/-- pySplitChar never returns the empty list of groups. -/
theorem pySplitChar_length_pos (sep : Char) : ∀ l : List Char,
    0 < (pySplitChar sep l).length := by
  intro l
  induction l with
  | nil => simp [pySplitChar]
  | cons c rest ih =>
    by_cases hc : (c == sep) = true
    · simp [pySplitChar, hc]
    · simp only [pySplitChar, hc]
      cases hr : pySplitChar sep rest with
      | nil => simp
      | cons g gs => simp

/-! ## Claim theorems -/

/-- C1: for every discovered workunit set and every selector spec, the
selected workunits are exactly those w with w = spec or w starting with
spec ++ "/" (exact or directory-prefix match); in particular, for the set
{"a", "a/b", "ab"} the spec "a" selects exactly ["a", "a/b"], not "ab". -/
theorem selector_match_exact_or_dir :
    (∀ (workunits : List String) (spec w : String),
      w ∈ selectWorkunits workunits spec ↔
        w ∈ workunits ∧ (w = spec ∨ pyStartsWith (spec ++ "/") w = true))
    ∧ selectWorkunits ["a", "a/b", "ab"] "a" = ["a", "a/b"] := by
  constructor
  · intro workunits spec w
    simp [selectWorkunits, List.mem_filter, Bool.or_eq_true, beq_iff_eq]
  · rfl

/-- C2: a selector spec that matches no discovered workunit makes the run
raise the "Spec did not match any workunits" error (modelled as the some
component naming the failing spec): no workunit of that spec is executed,
the remaining specs of the role are aborted, and only the matches of the
earlier specs were executed. -/
theorem selector_miss_aborts (workunits : List String) :
    ∀ (done : List String) (s : String) (post : List String),
      (∀ t ∈ done, selectWorkunits workunits t ≠ []) →
      selectWorkunits workunits s = [] →
      runSpecs workunits (done ++ s :: post) =
        (done.flatMap (selectWorkunits workunits), some s) := by
  intro done
  induction done with
  | nil =>
    intro s post _ hs
    simp [runSpecs, hs]
  | cons t ts ih =>
    intro s post hall hs
    have ht : selectWorkunits workunits t ≠ [] := hall t (by simp)
    have hrest := ih s post (fun u hu => hall u (by simp [hu])) hs
    simp [runSpecs, ht, hrest]

/-- Witness for C2: against the discovered set ["direct_io",
"suites/ffsb.sh"], the spec list ["direct_io", "zzz", "suites"] executes
only "direct_io", then fails on "zzz" without touching "suites". -/
theorem selector_miss_aborts_witness :
    runSpecs ["direct_io", "suites/ffsb.sh"] (["direct_io"] ++ "zzz" :: ["suites"]) =
      (["direct_io"], some "zzz") :=
  selector_miss_aborts ["direct_io", "suites/ffsb.sh"] ["direct_io"] "zzz" ["suites"]
    (by decide) (by decide)

/-- C3: a pre-existing mountpoint yields created = false and its teardown
issues only the inner client-directory removal; a freshly created
mountpoint yields created = true and its teardown removes the client
directory and then the mountpoint.  In general the mountpoint removal is
issued exactly when created is true, while the client directory is always
removed. -/
theorem scratch_created_flag_teardown :
    ((makeScratchDir true).1 = false ∧
      deleteDir (makeScratchDir true).1 = [TeardownOp.rmClientDir])
    ∧ ((makeScratchDir false).1 = true ∧
      deleteDir (makeScratchDir false).1 =
        [TeardownOp.rmClientDir, TeardownOp.rmdirMountpoint])
    ∧ (∀ created : Bool,
        ((deleteDir created).contains TeardownOp.rmdirMountpoint) = created ∧
          TeardownOp.rmClientDir ∈ deleteDir created) := by
  refine ⟨⟨rfl, rfl⟩, ⟨rfl, rfl⟩, ?_⟩
  intro created
  cases created <;> exact ⟨by decide, by simp [deleteDir]⟩

/-- C6 (code evaluation): the discovery assertion can never fire, because
the Python split always returns at least one element; in particular an
empty listing (no executable files found) yields the singleton [""],
which passes the assert and lets the run proceed. -/
theorem discovery_assert_vacuous :
    (∀ listingContent : String,
      0 < (discoveredWorkunits listingContent).length)
    ∧ discoveredWorkunits "" = [""] := by
  constructor
  · intro c
    unfold discoveredWorkunits pySplit
    rw [List.length_insertionSort, List.length_map]
    exact pySplitChar_length_pos _ _
  · rfl

/-- C5 counterexample: strategy selection is substring containment, not
URL equality.  Both of these distinct URLs take the fast archive-transfer
path, so there is no single canonical URL whose equality characterizes
the fast path; in particular the non-canonical fork URL
".../ceph-ci.git" also takes it. -/
theorem fetch_fast_path_not_url_equality :
    fetchStrategy "https://github.com/ceph/ceph.git" = FetchStrategy.archiveTransfer
    ∧ fetchStrategy "https://github.com/ceph/ceph-ci.git" = FetchStrategy.archiveTransfer
    ∧ (("https://github.com/ceph/ceph.git" : String) ==
        "https://github.com/ceph/ceph-ci.git") = false := by
  exact ⟨by decide, by decide, by decide⟩

/-- C5 amended: the fetcher takes the fast archive-transfer path if and
only if the configured upstream URL contains "github.com/ceph/ceph" as a
substring; every other URL takes the clone + checkout fallback. -/
theorem fetch_fast_path_iff_substring (git_url : String) :
    fetchStrategy git_url = FetchStrategy.archiveTransfer ↔
      ∃ s t, git_url.toList = s ++ canonicalSubstring.toList ++ t := by
  rw [← pyInContains_iff]
  unfold fetchStrategy
  cases hc : pyInContains canonicalSubstring.toList git_url.toList <;> simp [hc]

/-- C8 (code evaluation): at the configuration of the claim (name_length = 10,
namespace = "", prefix = "x") the object-synthesis code raises TypeError
before generating any name — iterating the integer name_length fails, and
even with list-wrapped config values the fillerlen subtraction from the
name_length list fails — whereas the intended synthesis (modelled from
the spec) gives index 3 the name "xaaaaaaaa3" of length exactly 10. -/
theorem lfn_object_name_type_error :
    lfn_task_objects (PyVal.pint 10) (PyVal.pstr "") "x" 4 = none
    ∧ lfn_task_objects (PyVal.plist [PyVal.pint 10]) (PyVal.plist [PyVal.pstr ""]) "x" 4 = none
    ∧ spec_object_name 10 "" "x" 3 = "xaaaaaaaa3"
    ∧ (spec_object_name 10 "" "x" 3).length = 10 :=
  ⟨rfl, rfl, rfl, rfl⟩

/-- C9: when both env PYTHON and the config option python are supplied,
the resolved runtime is "python" ++ version (config wins over env), and
only the config-driven case adds the explicit env -- PYTHON invocation;
with env PYTHON alone the runtime resolves from env but the workunit is
not invoked through it. -/
theorem python_config_overrides_env (e : List (String × String)) (pv v : String)
    (he : e ≠ []) (hl : e.lookup "PYTHON" = some pv) :
    resolvePYTHON (some e) (some v) = some ("python" ++ v)
    ∧ explicitRuntimeArgs (some v) (resolvePYTHON (some e) (some v)) =
        ["env", "--", "python" ++ v]
    ∧ resolvePYTHON (some e) none = some pv
    ∧ explicitRuntimeArgs none (resolvePYTHON (some e) none) = [] := by
  refine ⟨rfl, rfl, ?_, rfl⟩
  simp [resolvePYTHON, he, hl]

/-- Witness for C9 at env = {PYTHON: "python3.6"}, python = "3". -/
theorem python_config_overrides_env_witness :
    resolvePYTHON (some [("PYTHON", "python3.6")]) (some "3") = some "python3"
    ∧ explicitRuntimeArgs (some "3")
        (resolvePYTHON (some [("PYTHON", "python3.6")]) (some "3")) =
        ["env", "--", "python3"]
    ∧ resolvePYTHON (some [("PYTHON", "python3.6")]) none = some "python3.6"
    ∧ explicitRuntimeArgs none
        (resolvePYTHON (some [("PYTHON", "python3.6")]) none) = [] :=
  python_config_overrides_env [("PYTHON", "python3.6")] "python3.6" "3"
    (by decide) (by decide)

/-- C7 counterexample: the role "clientele.0" decomposes to type
"clientele" (not "client"), yet its run only fails after the scratch
provisioning already issued remote commands, because the task-level check
is the substring test "client" in role, which "clientele.0" passes; so a
role of a non-"client" type does not always fail before remote
interaction. -/
theorem role_type_checked_after_remote_ops :
    splitRole "clientele.0" = some ("ceph", "clientele", "0")
    ∧ (("clientele" : String) == "client") = false
    ∧ (roleProcess "clientele.0" true).2 = false
    ∧ (roleProcess "clientele.0" true).1 =
        [RoleOp.provisionOp ScratchOp.statMnt,
         RoleOp.provisionOp ScratchOp.sudoInstallSubdir] := by
  exact ⟨by decide, by decide, by decide, by decide⟩

/-- C7 amended: a non-"all" role whose string does not contain "client"
as a substring fails the task-level assertion before any remote
interaction; a role that does contain "client" but decomposes to a type
other than "client" still makes the run for that role fail with no
workunit executed, but only at the execution step, after scratch
provisioning may already have performed remote interaction. -/
theorem role_validation_amended (role : String) (mntPreExists : Bool) :
    (pyInContains "client".toList role.toList = false →
      roleProcess role mntPreExists = ([], false))
    ∧ (∀ c t i, splitRole role = some (c, t, i) → t ≠ "client" →
        (roleProcess role mntPreExists).2 = false ∧
          ((roleProcess role mntPreExists).1.contains RoleOp.runWorkunits) = false) := by
  constructor
  · intro hnc
    unfold roleProcess
    rw [hnc]
    rfl
  · intro c t i hsplit ht
    unfold roleProcess
    cases hc : pyInContains "client".toList role.toList with
    | false => exact ⟨rfl, rfl⟩
    | true =>
      rw [hsplit]
      dsimp only
      rw [if_neg ht]
      refine ⟨rfl, ?_⟩
      cases mntPreExists <;> decide

/-- Witness for C7 amended: "mon.0" fails with no remote interaction;
"clientele.0" fails with no workunit executed. -/
theorem role_validation_amended_witness :
    roleProcess "mon.0" true = ([], false)
    ∧ ((roleProcess "clientele.0" false).2 = false ∧
        ((roleProcess "clientele.0" false).1.contains RoleOp.runWorkunits) = false) :=
  ⟨(role_validation_amended "mon.0" true).1 (by decide),
   (role_validation_amended "clientele.0" false).2 "ceph" "clientele" "0"
     (by decide) (by decide)⟩

/-- pyPathJoin inserts a single separator between a non-empty directory
with no trailing slash and a relative component. -/
theorem pyPathJoin_rel (a b : String) (hb : strHead b ≠ some '/')
    (ha : a ≠ "") (ha2 : strLast a ≠ some '/') :
    pyPathJoin a b = a ++ "/" ++ b := by
  unfold pyPathJoin
  rw [if_neg hb, if_neg ha, if_neg ha2]

/-- C10: phase 1 spawns _run_tests without the configured subdir, so its
scratch-tmp is always mnt/client.<id>/tmp whatever subdir the
configuration carries; the "all" wave passes the configured subdir
through, and then scratch-tmp is mnt/<subdir> with no tmp suffix. -/
theorem scratch_tmp_subdir_phases (cfgSubdir : Option String)
    (mnt id_ sd : String) (hmnt : mnt ≠ "") (hmnt2 : strLast mnt ≠ some '/')
    (hid : strLast id_ ≠ some '/') (hsd : strHead sd ≠ some '/') :
    scratchTmp mnt id_ (phase1RunSubdir cfgSubdir) =
      mnt ++ "/client." ++ id_ ++ "/tmp"
    ∧ scratchTmp mnt id_ (allWaveRunSubdir (some sd)) = mnt ++ "/" ++ sd := by
  constructor
  · show pyPathJoin (pyPathJoin mnt ("client." ++ id_)) "tmp" = _
    have hhead : strHead ("client." ++ id_) ≠ some '/' := by
      have : strHead ("client." ++ id_) = some 'c' := rfl
      rw [this]
      simp
    rw [pyPathJoin_rel mnt ("client." ++ id_) hhead hmnt hmnt2]
    have hne : mnt ++ "/" ++ ("client." ++ id_) ≠ "" := by
      intro h
      have hd : (mnt.data ++ "/".data) ++ ("client." ++ id_).data = [] :=
        congrArg String.data h
      rcases List.append_eq_nil.mp hd with ⟨h1, _⟩
      rcases List.append_eq_nil.mp h1 with ⟨_, h2⟩
      exact absurd h2 (by simp)
    have hlast : strLast (mnt ++ "/" ++ ("client." ++ id_)) ≠ some '/' := by
      show ((mnt.data ++ "/".data) ++ ("client.".data ++ id_.data)).getLast? ≠ some '/'
      rw [List.getLast?_append_of_ne_nil _ (by simp)]
      cases hid' : id_.data with
      | nil =>
        decide
      | cons c cs =>
        rw [List.getLast?_append_of_ne_nil _ (by simp [hid'])]
        rw [← hid']
        exact hid
    rw [pyPathJoin_rel _ "tmp" (by decide) hne hlast]
    apply String.ext
    show (((mnt.data ++ "/".data) ++ ("client.".data ++ id_.data)) ++ "/".data)
        ++ "tmp".data =
      ((mnt.data ++ "/client.".data) ++ id_.data) ++ "/tmp".data
    simp only [List.append_assoc]
    rfl
  · exact pyPathJoin_rel mnt sd hsd hmnt hmnt2

/-- Witness for C10: with a configured subdir "wusub", phase 1 still uses
mnt/client.0/tmp while the "all" wave uses mnt/wusub. -/
theorem scratch_tmp_subdir_phases_witness :
    scratchTmp "/home/u/cephtest/mnt.0" "0" (phase1RunSubdir (some "wusub")) =
      "/home/u/cephtest/mnt.0/client.0/tmp"
    ∧ scratchTmp "/home/u/cephtest/mnt.0" "0" (allWaveRunSubdir (some "wusub")) =
      "/home/u/cephtest/mnt.0/wusub" :=
  scratch_tmp_subdir_phases (some "wusub") "/home/u/cephtest/mnt.0" "0" "wusub"
    (by decide) (by decide) (by decide) (by decide)

/-- An event that is not an "all"-wave execution is WOrder-below
everything. -/
theorem worder_of_none {a : WEvent} (h : allIdx a = none) (b : WEvent) :
    WOrder a b := by
  intro m hm
  rw [h] at hm
  exact absurd hm (by simp)

/-- Pairwise WOrder from an unconditional bound on the left elements. -/
theorem pairwise_of_forall_worder : ∀ {l : List WEvent},
    (∀ a ∈ l, ∀ b, WOrder a b) → l.Pairwise WOrder := by
  intro l
  induction l with
  | nil => intro _; exact List.Pairwise.nil
  | cons x xs ih =>
    intro h
    refine List.Pairwise.cons (fun b _ => h x (by simp) b) (ih ?_)
    intro a ha b
    exact h a (by simp [ha]) b

/-- Every event of phase2Trace is an "all"-wave execution whose selector
position is at least the starting position. -/
theorem mem_phase2Trace (allRoles : List String) :
    ∀ (specs : List String) (start : Nat) (e : WEvent),
      e ∈ phase2Trace allRoles start specs →
      ∃ m s r, e = WEvent.runAll m s r ∧ start ≤ m := by
  intro specs
  induction specs with
  | nil =>
    intro start e he
    simp [phase2Trace] at he
  | cons s rest ih =>
    intro start e he
    simp only [phase2Trace] at he
    rcases List.mem_append.mp he with h1 | h2
    · rcases List.mem_map.mp h1 with ⟨r, _, rfl⟩
      exact ⟨start, s, r, rfl, le_refl _⟩
    · rcases ih (start + 1) e h2 with ⟨m, s', r, rfl, hm⟩
      exact ⟨m, s', r, rfl, by omega⟩

/-- Selector positions are non-decreasing along phase2Trace. -/
theorem pairwise_phase2Trace (allRoles : List String) :
    ∀ (specs : List String) (start : Nat),
      (phase2Trace allRoles start specs).Pairwise WOrder := by
  intro specs
  induction specs with
  | nil =>
    intro start
    simp [phase2Trace]
  | cons s rest ih =>
    intro start
    simp only [phase2Trace]
    rw [List.pairwise_append]
    refine ⟨?_, ih (start + 1), ?_⟩
    · -- within one selector wave every event carries the same position
      clear ih
      induction allRoles with
      | nil => exact List.Pairwise.nil
      | cons r rs ihr =>
        refine List.Pairwise.cons ?_ ihr
        intro b hb
        rcases List.mem_map.mp hb with ⟨r2, _, rfl⟩
        intro m hm
        simp only [allIdx, Option.some.injEq] at hm
        subst hm
        exact ⟨rfl, fun n hn => by
          simp only [allIdx, Option.some.injEq] at hn
          omega⟩
    · intro a ha b hb
      rcases List.mem_map.mp ha with ⟨r1, _, rfl⟩
      rcases mem_phase2Trace allRoles rest (start + 1) b hb with ⟨m, s', r', rfl, hm⟩
      intro k hk
      simp only [allIdx, Option.some.injEq] at hk
      subst hk
      exact ⟨rfl, fun n hn => by
        simp only [allIdx, Option.some.injEq] at hn
        omega⟩

/-- The whole orchestration trace respects WOrder pairwise. -/
theorem taskTrace_pairwise (clients : List (String × List String))
    (allRoles : List String) :
    (taskTrace clients allRoles).Pairwise WOrder := by
  have hphase1 : ∀ a ∈
      (explicitClients clients).map (fun c => WEvent.provisionExplicit c.1) ++
        (explicitClients clients).map (fun c => WEvent.runExplicit c.1 c.2) ++
        (explicitClients clients).map (fun c => WEvent.teardownExplicit c.1),
      ∀ b, WOrder a b := by
    intro a ha b
    rcases List.mem_append.mp ha with h1 | h2
    · rcases List.mem_append.mp h1 with h3 | h4
      · rcases List.mem_map.mp h3 with ⟨c, _, rfl⟩
        exact worder_of_none (by rfl) b
      · rcases List.mem_map.mp h4 with ⟨c, _, rfl⟩
        exact worder_of_none (by rfl) b
    · rcases List.mem_map.mp h2 with ⟨c, _, rfl⟩
      exact worder_of_none (by rfl) b
  unfold taskTrace
  rw [List.pairwise_append]
  refine ⟨pairwise_of_forall_worder hphase1, ?_, fun a ha b _ => hphase1 a ha b⟩
  cases hf : clients.find? (fun c => c.1 == "all") with
  | none => exact List.Pairwise.nil
  | some c =>
    have hpall : ∀ a ∈ allRoles.map WEvent.provisionAll, ∀ b, WOrder a b := by
      intro a ha b
      rcases List.mem_map.mp ha with ⟨r, _, rfl⟩
      exact worder_of_none (by rfl) b
    have htall : ∀ a ∈ allRoles.map WEvent.teardownAll, ∀ b, WOrder a b := by
      intro a ha b
      rcases List.mem_map.mp ha with ⟨r, _, rfl⟩
      exact worder_of_none (by rfl) b
    unfold spawnOnAllClients
    rw [List.pairwise_append]
    refine ⟨?_, pairwise_of_forall_worder htall, ?_⟩
    · rw [List.pairwise_append]
      exact ⟨pairwise_of_forall_worder hpall,
        pairwise_phase2Trace allRoles c.2 0,
        fun a ha b _ => hpall a ha b⟩
    · intro a ha b hb
      rcases List.mem_append.mp ha with h1 | h2
      · rcases List.mem_map.mp h1 with ⟨r, _, rfl⟩
        exact worder_of_none (by rfl) b
      · rcases mem_phase2Trace allRoles c.2 0 a h2 with ⟨m, s, r, rfl, _⟩
        rcases List.mem_map.mp hb with ⟨r2, _, rfl⟩
        intro k _
        exact ⟨rfl, fun n hn => absurd hn (by simp [allIdx])⟩

/-- C4: in every orchestration trace, every "all"-wave execution event
comes strictly after every explicit-phase event (provisioning, per-role
execution units, and their teardown), and the "all" wave is
selector-major: an execution event of an earlier selector comes strictly
before every execution event of a later selector, across all roles. -/
theorem all_wave_ordering (clients : List (String × List String))
    (allRoles : List String) (i j : Nat)
    (hi : i < (taskTrace clients allRoles).length)
    (hj : j < (taskTrace clients allRoles).length) :
    (isPhase1 ((taskTrace clients allRoles).get ⟨i, hi⟩) = true →
      ∀ n, allIdx ((taskTrace clients allRoles).get ⟨j, hj⟩) = some n → i < j)
    ∧ (∀ m n, allIdx ((taskTrace clients allRoles).get ⟨i, hi⟩) = some m →
        allIdx ((taskTrace clients allRoles).get ⟨j, hj⟩) = some n →
        m < n → i < j) := by
  have hp := taskTrace_pairwise clients allRoles
  rw [List.pairwise_iff_get] at hp
  constructor
  · intro hph n hn
    by_contra hij
    push_neg at hij
    rcases lt_or_eq_of_le hij with hlt | heq
    · have hw := hp ⟨j, hj⟩ ⟨i, hi⟩ hlt n hn
      rw [hw.1] at hph
      exact absurd hph (by simp)
    · have hcast : (⟨j, hj⟩ : Fin (taskTrace clients allRoles).length) = ⟨i, hi⟩ :=
        Fin.ext heq
      rw [hcast] at hn
      cases hev : (taskTrace clients allRoles).get ⟨i, hi⟩ <;>
        rw [hev] at hph hn <;> simp [isPhase1, allIdx] at hph hn
  · intro m n hm hn hmn
    by_contra hij
    push_neg at hij
    rcases lt_or_eq_of_le hij with hlt | heq
    · have hw := (hp ⟨j, hj⟩ ⟨i, hi⟩ hlt n hn).2 m hm
      omega
    · have hcast : (⟨j, hj⟩ : Fin (taskTrace clients allRoles).length) = ⟨i, hi⟩ :=
        Fin.ext heq
      rw [hcast, hm] at hn
      injection hn with hnm
      omega

/-- Witness for C4: for clients {client.0: [direct_io], all: [snaps,
other]} over the discovered roles client.0 and client.1, the explicit
teardown (position 2) precedes the first "snaps" execution (position 5),
and the last "snaps" execution (position 6) precedes the first "other"
execution (position 7). -/
theorem all_wave_ordering_witness : (2 : Nat) < 5 ∧ (6 : Nat) < 7 :=
  ⟨(all_wave_ordering [("client.0", ["direct_io"]), ("all", ["snaps", "other"])]
      ["client.0", "client.1"] 2 5 (by decide) (by decide)).1 (by rfl) 0 (by rfl),
   (all_wave_ordering [("client.0", ["direct_io"]), ("all", ["snaps", "other"])]
      ["client.0", "client.1"] 6 7 (by decide) (by decide)).2 0 1 (by rfl) (by rfl)
     (by decide)⟩

end CephQA
